import Mathlib

/-!
Verification development for the `pixel_loop` repository.

Shallow embedding of the core subsystems: the RGBA color type
(`src/pixel_loop/color.rs`), the canvas contract with its rectangle
clipping, fills and blits (`src/pixel_loop/canvas/mod.rs`,
`src/pixel_loop/canvas/in_memory.rs`), the fixed-timestep scheduler
(`src/pixel_loop/lib.rs`), the terminal diff renderer
(`src/pixel_loop/canvas/crossterm.rs`) and the keyboard input state
machine (`src/pixel_loop/input/crossterm.rs`).

Conventions: machine integers are embedded as `Nat`/`Int`, with the
truncating casts of the source (`as u8`, `as u32`, `as u16`) written as
explicit `% 2 ^ 8`, `% 2 ^ 32`, `% 2 ^ 16` at the places where the
source performs them.  Code that can panic (slice indexing,
`copy_from_slice`) is embedded in the `Option` monad, `none` standing
for a panic.  `std::time::Duration` values are embedded as their whole
number of nanoseconds (`Nat`), which is exact for every duration the
scheduler manipulates.
-/

namespace PixelLoop

/-- RGBA color, `struct Color` in `src/pixel_loop/color.rs`: four 8-bit
channels `r`, `g`, `b`, `a`. -/
structure Color where
  r : Nat
  g : Nat
  b : Nat
  a : Nat
deriving DecidableEq, Repr

/-- `Color::from_rgba` in `src/pixel_loop/color.rs`.  The source declares
the parameters in the order `(r, b, g, a)` and builds the struct with
field-name shorthand `Self { r, g, b, a }`, so the second positional
argument is stored in the `b` field and the third in the `g` field. -/
def Color.from_rgba (r b g a : Nat) : Color :=
  { r := r, g := g, b := b, a := a }

/-- `Color::from_rgb` in `src/pixel_loop/color.rs`: parameters declared
in the order `(r, b, g)`, alpha fixed to 255. -/
def Color.from_rgb (r b g : Nat) : Color :=
  { r := r, g := g, b := b, a := 255 }

/-- `Canvas::clip_rect` in `src/pixel_loop/canvas/mod.rs` (lines
162-180), identical to `Canvas::normalize_rect` in
`src/pixel_loop/lib.rs` (lines 369-393).  `W`/`H` are the canvas
dimensions (`u32`), `x`/`y` the signed origin (`i64`), `width`/`height`
the unsigned extent (`u32`).  The four `as u32` casts on the way out are
the `% 2 ^ 32` truncations. -/
def clip_rect (W H : Nat) (x y : Int) (width height : Nat) :
    Option (Nat × Nat × Nat × Nat) :=
  let w : Int := width
  let h : Int := height
  if x < -w ∨ y < -h ∨ (W : Int) ≤ x ∨ (H : Int) ≤ y then
    -- Completely out of view
    none
  else
    let norm_x := max 0 x
    let norm_y := max 0 y
    let norm_width := min (w - (norm_x - x)) ((W : Int) - norm_x - 1)
    let norm_height := min (h - (norm_y - y)) ((H : Int) - norm_y - 1)
    some ((norm_x % (2 ^ 32 : Int)).toNat, (norm_y % (2 ^ 32 : Int)).toNat,
      (norm_width % (2 ^ 32 : Int)).toNat, (norm_height % (2 ^ 32 : Int)).toNat)

/-- `InMemoryCanvas` in `src/pixel_loop/canvas/in_memory.rs`: a flat
row-major pixel buffer with its dimensions. -/
structure InMemoryCanvas where
  buffer : List Color
  width : Nat
  height : Nat
deriving DecidableEq, Repr

namespace InMemoryCanvas

/-- `InMemoryCanvas::new`: a `width * height` buffer filled with one
color. -/
def new (width height : Nat) (color : Color) : InMemoryCanvas :=
  { buffer := List.replicate (width * height) color, width := width, height := height }

/-- `Canvas::get_range` for `InMemoryCanvas`: `&self.buffer[range]`.
Rust range indexing panics (`none`) unless `start ≤ stop ≤ len`. -/
def get_range (c : InMemoryCanvas) (start stop : Nat) : Option (List Color) :=
  if start ≤ stop ∧ stop ≤ c.buffer.length then
    some ((c.buffer.drop start).take (stop - start))
  else
    none

/-- `Canvas::set_range` for `InMemoryCanvas`:
`self.buffer[range].copy_from_slice(color)`.  Panics (`none`) if the
range is out of bounds or the slice lengths differ. -/
def set_range (c : InMemoryCanvas) (start stop : Nat) (colors : List Color) :
    Option InMemoryCanvas :=
  if start ≤ stop ∧ stop ≤ c.buffer.length ∧ colors.length = stop - start then
    some { c with buffer := c.buffer.take start ++ colors ++ c.buffer.drop stop }
  else
    none

/-- `Canvas::get` (`canvas/mod.rs` lines 119-125): flat index
`y * width + x` computed in `u32`, then a one-element range read whose
first element is returned.  Panics (`none`) when the index is out of
range of the buffer. -/
def get (c : InMemoryCanvas) (x y : Nat) : Option Color :=
  let i := (y * c.width + x) % 2 ^ 32
  (c.get_range i (i + 1)).bind fun color_slice => color_slice[0]?

/-- `Canvas::set` (`canvas/mod.rs` lines 151-155): one-element range
write at flat index `y * width + x`. -/
def set (c : InMemoryCanvas) (x y : Nat) (color : Color) : Option InMemoryCanvas :=
  let i := (y * c.width + x) % 2 ^ 32
  c.set_range i (i + 1) [color]

/-- `Canvas::maybe_get` (`canvas/mod.rs` lines 127-139): bounds check on
the signed coordinates, then `get` on the `as u32` casts.  The outer
`Option` is the panic monad, the inner one the source's return value. -/
def maybe_get (c : InMemoryCanvas) (x y : Int) : Option (Option Color) :=
  if x < 0 ∨ y < 0 ∨ (c.width : Int) ≤ x ∨ (c.height : Int) ≤ y then
    -- Out of view
    some none
  else
    (c.get (x.toNat % 2 ^ 32) (y.toNat % 2 ^ 32)).map some

/-- `Canvas::is_empty_or_color` (`canvas/mod.rs` lines 141-149):
`maybe_get(x, y).map(|c| c == color).unwrap_or(true)`. -/
def is_empty_or_color (c : InMemoryCanvas) (x y : Int) (color : Color) : Option Bool :=
  (c.maybe_get x y).map fun mc => (mc.map fun cc => cc == color).getD true

/-- `Canvas::filled_rect` (`canvas/mod.rs` lines 187-198): clip, then
fill one row at a time through `set_range`.  Row range ends are the
`u32` sums of the source. -/
def filled_rect (c : InMemoryCanvas) (sx sy : Int) (width height : Nat)
    (color : Color) : Option InMemoryCanvas :=
  match clip_rect c.width c.height sx sy width height with
  | none => some c
  | some (sx, sy, width, height) =>
    let color_row := List.replicate width color
    (List.range' sy height).foldlM
      (fun acc y =>
        acc.set_range ((y * acc.width + sx) % 2 ^ 32)
          ((y * acc.width + sx + width) % 2 ^ 32) color_row)
      c

/-- `Canvas::clear_screen` (`canvas/mod.rs` lines 182-185):
`filled_rect(0, 0, width, height, color)`. -/
def clear_screen (c : InMemoryCanvas) (color : Color) : Option InMemoryCanvas :=
  c.filled_rect 0 0 c.width c.height color

/-- `Canvas::blit_rect` (`canvas/mod.rs` lines 78-117): clip the
destination rectangle, then copy row by row from the source canvas,
optionally mapping every copied color through the multiplicative tint
`Color::from_rgb(c.r * t.r / 255, c.g * t.g / 255, c.b * t.b / 255)`
(each product-quotient truncated to `u8`). -/
def blit_rect (c : InMemoryCanvas) (src_canvas : InMemoryCanvas)
    (src_x src_y width height : Nat) (dst_x dst_y : Int) (tint : Option Color) :
    Option InMemoryCanvas :=
  match clip_rect c.width c.height dst_x dst_y width height with
  | none => some c
  | some (norm_dst_x, norm_dst_y, norm_width, norm_height) =>
    (List.range norm_height).foldlM
      (fun acc y =>
        let src_start := ((src_y + y) * src_canvas.width + src_x) % 2 ^ 32
        let src_end := src_start + min width norm_width
        let dst_start := ((norm_dst_y + y) * acc.width + norm_dst_x) % 2 ^ 32
        let dst_end := dst_start + norm_width
        (src_canvas.get_range src_start src_end).bind fun row =>
          match tint with
          | some tint =>
            acc.set_range dst_start dst_end
              (row.map fun cc =>
                Color.from_rgb (cc.r * tint.r / 255 % 2 ^ 8)
                  (cc.g * tint.g / 255 % 2 ^ 8) (cc.b * tint.b / 255 % 2 ^ 8))
          | none => acc.set_range dst_start dst_end row)
      c

end InMemoryCanvas

/-- C1: `clip_rect` does not return the maximal visible sub-rectangle.
On a 10 by 10 canvas the request `(8, 8, 5, 5)` has visible part
`[8,10) x [8,10)`, i.e. `(8, 8, 2, 2)`, but the `- 1` in the clamp makes
the code return `(8, 8, 1, 1)`.  Moreover the rectangle `(-5, 0, 5, 5)`
has empty intersection with the canvas (zero visible area), for which
the claim requires `None`, yet the code returns a degenerate
`Some((0, 0, 0, 5))`. -/
theorem c1_clip_rect_under_clips :
    clip_rect 10 10 8 8 5 5 = some (8, 8, 1, 1) ∧
    clip_rect 10 10 8 8 5 5 ≠ some (8, 8, 2, 2) ∧
    clip_rect 10 10 (-5) 0 5 5 = some (0, 0, 0, 5) := by
  refine ⟨by decide, by decide, by decide⟩

/-- C2: blitting with the white tint `Color::from_rgb(255, 255, 255)` is
not pixel-for-pixel identical to blitting with no tint.  Copying the
single source pixel `(r 10, g 20, b 30, a 255)` onto a 2 by 2 canvas
writes `(r 10, g 30, b 20, a 255)` under the white tint — the tint path
rebuilds each pixel through `Color::from_rgb`, whose `(r, b, g)`
parameter order swaps the green and blue channels — while the untinted
path copies `(r 10, g 20, b 30, a 255)` unchanged. -/
theorem c2_white_tint_differs_from_no_tint :
    InMemoryCanvas.blit_rect
        { buffer := List.replicate 4 { r := 0, g := 0, b := 0, a := 255 },
          width := 2, height := 2 }
        { buffer := [{ r := 10, g := 20, b := 30, a := 255 }], width := 1, height := 1 }
        0 0 1 1 0 0 (some (Color.from_rgb 255 255 255)) =
      some
        { buffer := { r := 10, g := 30, b := 20, a := 255 } ::
            List.replicate 3 { r := 0, g := 0, b := 0, a := 255 },
          width := 2, height := 2 } ∧
    InMemoryCanvas.blit_rect
        { buffer := List.replicate 4 { r := 0, g := 0, b := 0, a := 255 },
          width := 2, height := 2 }
        { buffer := [{ r := 10, g := 20, b := 30, a := 255 }], width := 1, height := 1 }
        0 0 1 1 0 0 none =
      some
        { buffer := { r := 10, g := 20, b := 30, a := 255 } ::
            List.replicate 3 { r := 0, g := 0, b := 0, a := 255 },
          width := 2, height := 2 } := by
  constructor
  · decide
  · decide

/-! ## Keyboard input state machine (`src/pixel_loop/input/`) -/

/-- `KeyboardKey` enum from `src/pixel_loop/input/mod.rs`. -/
inductive KeyboardKey
  | Apostrophe | Comma | Minus | Period | Slash
  | Zero | One | Two | Three | Four | Five | Six | Seven | Eight | Nine
  | Semicolon | Equal
  | A | B | C | D | E | F | G | H | I | J | K | L | M
  | N | O | P | Q | R | S | T | U | V | W | X | Y | Z
  | LeftBracket | Backslash | RightBracket | Grave
  | Space | Escape | Enter | Tab | Backspace | Insert | Delete
  | Right | Left | Down | Up | PageUp | PageDown | Home | End
  | CapsLock | ScrollLock | NumLock | PrintScreen | Pause
  | F1 | F2 | F3 | F4 | F5 | F6 | F7 | F8 | F9 | F10 | F11 | F12
  | LeftShift | LeftControl | LeftAlt | LeftSuper
  | RightShift | RightControl | RightAlt | RightSuper | KbMenu
  | Kp0 | Kp1 | Kp2 | Kp3 | Kp4 | Kp5 | Kp6 | Kp7 | Kp8 | Kp9
  | KpDecimal | KpDivide | KpMultiply | KpSubtract | KpAdd | KpEnter | KpEqual
deriving DecidableEq, Repr

/-- Crossterm `KeyCode` (external input library): the variants consumed
by `map_crossterm_keycode_to_pixel_loop`.  Payloads the mapping ignores
(media keys, modifier keys) are collapsed into payload-free
constructors. -/
inductive KeyCode
  | Backspace | Enter | Left | Right | Up | Down | Home | End
  | PageUp | PageDown | Tab | BackTab | Delete | Insert
  | F (n : Nat)
  | Char (c : Char)
  | Null | Esc | CapsLock | ScrollLock | NumLock | PrintScreen | Pause | Menu
  | KeypadBegin | Media | Modifier
deriving DecidableEq, Repr

/-- Crossterm `KeyModifiers` bitflags, one boolean per flag. -/
structure KeyModifiers where
  shift : Bool
  control : Bool
  alt : Bool
  superKey : Bool
  hyperKey : Bool
  metaKey : Bool
deriving DecidableEq, Repr

/-- The `KeyModifiers::CONTROL` constant: exactly the control flag. -/
def KeyModifiers.CONTROL : KeyModifiers :=
  { shift := false, control := true, alt := false, superKey := false,
    hyperKey := false, metaKey := false }

/-- Crossterm `KeyEventKind`. -/
inductive KeyEventKind
  | Press
  | Release
  | Repeat
deriving DecidableEq, Repr

/-- Crossterm `KeyEvent`: kind, key code and modifier flags. -/
structure KeyEvent where
  kind : KeyEventKind
  code : KeyCode
  modifiers : KeyModifiers
deriving DecidableEq, Repr

/-- Crossterm `Event`: key events, terminal resizes, everything else
(focus, mouse, paste) collapsed into `Other` — the input code ignores
them. -/
inductive Event
  | Key (e : KeyEvent)
  | Resize (columns rows : Nat)
  | Other
deriving DecidableEq, Repr

/-- The `KeyCode::Char` arm of `map_crossterm_keycode_to_pixel_loop`
(`input/crossterm.rs` lines 116-166).  The backquote character is
matched through its code point 96. -/
def map_char_to_pixel_loop (c : Char) : Option KeyboardKey :=
  match c with
  | '1' => some KeyboardKey.One
  | '2' => some KeyboardKey.Two
  | '3' => some KeyboardKey.Three
  | '4' => some KeyboardKey.Four
  | '5' => some KeyboardKey.Five
  | '6' => some KeyboardKey.Six
  | '7' => some KeyboardKey.Seven
  | '8' => some KeyboardKey.Eight
  | '9' => some KeyboardKey.Nine
  | '0' => some KeyboardKey.Zero
  | 'a' | 'A' => some KeyboardKey.A
  | 'b' | 'B' => some KeyboardKey.B
  | 'c' | 'C' => some KeyboardKey.C
  | 'd' | 'D' => some KeyboardKey.D
  | 'e' | 'E' => some KeyboardKey.E
  | 'f' | 'F' => some KeyboardKey.F
  | 'g' | 'G' => some KeyboardKey.G
  | 'h' | 'H' => some KeyboardKey.H
  | 'i' | 'I' => some KeyboardKey.I
  | 'j' | 'J' => some KeyboardKey.J
  | 'k' | 'K' => some KeyboardKey.K
  | 'l' | 'L' => some KeyboardKey.L
  | 'm' | 'M' => some KeyboardKey.M
  | 'n' | 'N' => some KeyboardKey.N
  | 'o' | 'O' => some KeyboardKey.O
  | 'p' | 'P' => some KeyboardKey.P
  | 'q' | 'Q' => some KeyboardKey.Q
  | 'r' | 'R' => some KeyboardKey.R
  | 's' | 'S' => some KeyboardKey.S
  | 't' | 'T' => some KeyboardKey.T
  | 'u' | 'U' => some KeyboardKey.U
  | 'v' | 'V' => some KeyboardKey.V
  | 'w' | 'W' => some KeyboardKey.W
  | 'x' | 'X' => some KeyboardKey.X
  | 'y' | 'Y' => some KeyboardKey.Y
  | 'z' | 'Z' => some KeyboardKey.Z
  | '\'' => some KeyboardKey.Apostrophe
  | ',' => some KeyboardKey.Comma
  | '-' => some KeyboardKey.Minus
  | '.' => some KeyboardKey.Period
  | '/' => some KeyboardKey.Slash
  | ';' => some KeyboardKey.Semicolon
  | '=' => some KeyboardKey.Equal
  | '[' => some KeyboardKey.LeftBracket
  | '\\' => some KeyboardKey.Backslash
  | ']' => some KeyboardKey.RightBracket
  | ' ' => some KeyboardKey.Space
  | c => if c = Char.ofNat 96 then some KeyboardKey.Grave else none

/-- `map_crossterm_keycode_to_pixel_loop` (`input/crossterm.rs` lines
84-179): partial mapping from raw crossterm key codes to logical keys;
unmapped codes yield `None`. -/
def map_crossterm_keycode_to_pixel_loop (keycode : KeyCode) : Option KeyboardKey :=
  match keycode with
  | KeyCode.Backspace => some KeyboardKey.Backspace
  | KeyCode.Enter => some KeyboardKey.Enter
  | KeyCode.Left => some KeyboardKey.Left
  | KeyCode.Right => some KeyboardKey.Right
  | KeyCode.Up => some KeyboardKey.Up
  | KeyCode.Down => some KeyboardKey.Down
  | KeyCode.Home => some KeyboardKey.Home
  | KeyCode.End => some KeyboardKey.End
  | KeyCode.PageUp => some KeyboardKey.PageUp
  | KeyCode.PageDown => some KeyboardKey.PageDown
  | KeyCode.Tab => some KeyboardKey.Tab
  | KeyCode.BackTab => none
  | KeyCode.Delete => some KeyboardKey.Delete
  | KeyCode.Insert => some KeyboardKey.Insert
  | KeyCode.F fkey =>
    match fkey with
    | 1 => some KeyboardKey.F1
    | 2 => some KeyboardKey.F2
    | 3 => some KeyboardKey.F3
    | 4 => some KeyboardKey.F4
    | 5 => some KeyboardKey.F5
    | 6 => some KeyboardKey.F6
    | 7 => some KeyboardKey.F7
    | 8 => some KeyboardKey.F8
    | 9 => some KeyboardKey.F9
    | 10 => some KeyboardKey.F10
    | 11 => some KeyboardKey.F11
    | 12 => some KeyboardKey.F12
    | _ => none
  | KeyCode.Char c => map_char_to_pixel_loop c
  | KeyCode.Null => none
  | KeyCode.Esc => some KeyboardKey.Escape
  | KeyCode.CapsLock => some KeyboardKey.CapsLock
  | KeyCode.ScrollLock => some KeyboardKey.ScrollLock
  | KeyCode.NumLock => some KeyboardKey.NumLock
  | KeyCode.PrintScreen => some KeyboardKey.PrintScreen
  | KeyCode.Pause => some KeyboardKey.Pause
  | KeyCode.Menu => some KeyboardKey.KbMenu
  | KeyCode.KeypadBegin => none
  | KeyCode.Media => none
  | KeyCode.Modifier => none

/-- The key-countdown table `keys_down: HashMap<KeyboardKey, usize>`,
embedded as an association list without duplicate keys.  `insert`
mirrors `HashMap::insert`: replace in place returning the old value, or
append. -/
def assocInsert : List (KeyboardKey × Nat) → KeyboardKey → Nat →
    List (KeyboardKey × Nat) × Option Nat
  | [], k, v => ([(k, v)], none)
  | (k', v') :: rest, k, v =>
    if k' = k then
      ((k', v) :: rest, some v')
    else
      let r := assocInsert rest k v
      ((k', v') :: r.1, r.2)

/-- `HashMap::remove`: drop the entry, returning the old value if it was
present. -/
def assocRemove : List (KeyboardKey × Nat) → KeyboardKey →
    List (KeyboardKey × Nat) × Option Nat
  | [], _ => ([], none)
  | (k', v') :: rest, k =>
    if k' = k then
      (rest, some v')
    else
      let r := assocRemove rest k
      ((k', v') :: r.1, r.2)

/-- `HashMap::contains_key`. -/
def assocContains (m : List (KeyboardKey × Nat)) (k : KeyboardKey) : Bool :=
  m.any fun e => e.1 == k

/-- `decrement_key_ref_counts` (`input/crossterm.rs` lines 181-204):
decrement every countdown that is positive; entries reaching 0 are
dropped and collected as the removed keys. -/
def decrement_key_ref_counts (hmap : List (KeyboardKey × Nat)) :
    List KeyboardKey × List (KeyboardKey × Nat) :=
  hmap.foldl
    (fun acc e =>
      let rc := if 0 < e.2 then e.2 - 1 else e.2
      if rc = 0 then (acc.1 ++ [e.1], acc.2) else (acc.1, acc.2 ++ [(e.1, rc)]))
    ([], [])

/-- `NextLoopState`: the typed continue-or-exit result returned by the
per-tick refresh (declared in the crate root; constructed at
`input/crossterm.rs` lines 346 and 358). -/
inductive NextLoopState
  | Continue
  | Exit (code : Int)
deriving DecidableEq, Repr

/-- `CrosstermInputState` (`input/crossterm.rs` lines 22-29). -/
structure CrosstermInputState where
  event_queue : List Event
  keys_down : List (KeyboardKey × Nat)
  keys_pressed_this_update : List KeyboardKey
  keys_released_this_update : List KeyboardKey
  event_cycles_before_released : Nat
  enhanced_keyboard : Bool
deriving DecidableEq, Repr

namespace CrosstermInputState

/-- `CrosstermInputState::new`: empty state, countdown default 2,
fallback mode. -/
def new : CrosstermInputState :=
  { event_queue := [], keys_down := [], keys_pressed_this_update := [],
    keys_released_this_update := [], event_cycles_before_released := 2,
    enhanced_keyboard := false }

/-- `CrosstermInputState::next_loop_fallback` (`input/crossterm.rs`
lines 215-258): decrement the countdowns, clear the transient sets, then
handle every queued `Press` (reset countdown; mark pressed when newly
inserted), and finally mark as released every expired key that was not
re-pressed. -/
def next_loop_fallback (s : CrosstermInputState) (next_events : List Event) :
    CrosstermInputState :=
  let dec := decrement_key_ref_counts s.keys_down
  let removed_keys_down := dec.1
  let s1 := { s with
    keys_down := dec.2
    keys_pressed_this_update := []
    keys_released_this_update := [] }
  let s2 := next_events.foldl
    (fun st ev =>
      match ev with
      | Event.Key ke =>
        match ke.kind with
        | KeyEventKind.Press =>
          match map_crossterm_keycode_to_pixel_loop ke.code with
          | some keyboard_key =>
            let ins := assocInsert st.keys_down keyboard_key
              st.event_cycles_before_released
            if ins.2.isNone then
              -- Key is newly inserted.
              { st with
                keys_down := ins.1
                keys_pressed_this_update :=
                  st.keys_pressed_this_update ++ [keyboard_key] }
            else
              { st with keys_down := ins.1 }
          | none => st
        | _ => st
      | _ => st)
    s1
  removed_keys_down.foldl
    (fun st removed_key =>
      if assocContains st.keys_down removed_key then
        st
      else
        { st with keys_released_this_update :=
            st.keys_released_this_update ++ [removed_key] })
    s2

/-- `CrosstermInputState::next_loop_enhanced` (`input/crossterm.rs`
lines 260-304): clear the transient sets, then for each queued key
event: `Press` inserts (marking pressed when newly inserted), `Release`
removes (marking released when it was present), `Repeat` does
nothing. -/
def next_loop_enhanced (s : CrosstermInputState) (next_events : List Event) :
    CrosstermInputState :=
  let s1 := { s with
    keys_pressed_this_update := []
    keys_released_this_update := [] }
  next_events.foldl
    (fun st ev =>
      match ev with
      | Event.Key ke =>
        match map_crossterm_keycode_to_pixel_loop ke.code with
        | some keyboard_key =>
          match ke.kind with
          | KeyEventKind.Press =>
            let ins := assocInsert st.keys_down keyboard_key
              st.event_cycles_before_released
            if ins.2.isNone then
              { st with
                keys_down := ins.1
                keys_pressed_this_update :=
                  st.keys_pressed_this_update ++ [keyboard_key] }
            else
              { st with keys_down := ins.1 }
          | KeyEventKind.Release =>
            let rem := assocRemove st.keys_down keyboard_key
            if rem.2.isSome then
              { st with
                keys_down := rem.1
                keys_released_this_update :=
                  st.keys_released_this_update ++ [keyboard_key] }
            else
              { st with keys_down := rem.1 }
          | KeyEventKind.Repeat => st
        | none => st
      | _ => st)
    s1

/-- The reserved interrupt pattern of `InputState::next_loop`
(`input/crossterm.rs` lines 337-350): a `Press` of `'c'` or `'C'` whose
modifier flags are exactly `KeyModifiers::CONTROL`. -/
def ctrl_c_event : Event → Bool
  | Event.Key ke =>
    ke.kind == KeyEventKind.Press
      && (ke.code == KeyCode.Char 'c' || ke.code == KeyCode.Char 'C')
      && ke.modifiers == KeyModifiers.CONTROL
  | _ => false

/-- `InputState::next_loop` for `CrosstermInputState`
(`input/crossterm.rs` lines 332-359): drain the queue; if any queued
event is the reserved interrupt, return `Exit(130)` before either
strategy runs; otherwise run the enhanced or fallback strategy. -/
def next_loop (s : CrosstermInputState) : NextLoopState × CrosstermInputState :=
  let next_events := s.event_queue
  let s1 := { s with event_queue := [] }
  if next_events.any ctrl_c_event then
    -- SIGINT exitcode
    (NextLoopState.Exit 130, s1)
  else if s1.enhanced_keyboard then
    (NextLoopState.Continue, s1.next_loop_enhanced next_events)
  else
    (NextLoopState.Continue, s1.next_loop_fallback next_events)

/-- `KeyboardState::is_key_pressed`. -/
def is_key_pressed (s : CrosstermInputState) (key : KeyboardKey) : Bool :=
  s.keys_pressed_this_update.contains key

/-- `KeyboardState::is_key_down`. -/
def is_key_down (s : CrosstermInputState) (key : KeyboardKey) : Bool :=
  assocContains s.keys_down key

/-- `KeyboardState::is_key_released`. -/
def is_key_released (s : CrosstermInputState) (key : KeyboardKey) : Bool :=
  s.keys_released_this_update.contains key

/-- `KeyboardState::is_key_up`. -/
def is_key_up (s : CrosstermInputState) (key : KeyboardKey) : Bool :=
  !(assocContains s.keys_down key)

end CrosstermInputState

/-! ## Terminal diff renderer (`src/pixel_loop/canvas/crossterm.rs`) -/

/-- One buffered element of a `Patch`'s `data`: either a
`SetColors(foreground, background)` escape sequence or the printed
upper-half-block glyph (the model keeps the commands rather than their
serialized ANSI bytes). -/
inductive PatchCmd
  | setColors (upper lower : Color)
  | printHalfBlock
deriving DecidableEq, Repr

/-- `struct Patch` (`canvas/crossterm.rs` lines 161-168): anchor cell,
buffered output, last color pair written. -/
structure Patch where
  position : Nat × Nat
  data : List PatchCmd
  previous_colors : Option (Color × Color)
deriving DecidableEq, Repr

/-- `Patch::new` (the anchor's `as u16` casts are the `% 2 ^ 16`). -/
def Patch.new (x y : Nat) : Patch :=
  { position := (x % 2 ^ 16, y % 2 ^ 16), data := [], previous_colors := none }

/-- `Patch::add_two_row_pixel` (`canvas/crossterm.rs` lines 185-205):
emit a `SetColors` only when the pair differs from the last pair written
into this patch, then print the half block. -/
def Patch.add_two_row_pixel (p : Patch) (upper lower : Color) : Patch :=
  if p.previous_colors ≠ some (upper, lower) then
    { p with
      data := p.data ++ [PatchCmd.setColors upper lower, PatchCmd.printHalfBlock]
      previous_colors := some (upper, lower) }
  else
    { p with data := p.data ++ [PatchCmd.printHalfBlock] }

/-- `CrosstermCanvas` (`canvas/crossterm.rs` lines 41-60): dimensions
and the two pixel buffers.  The frame-pacing fields (`frame_limit_nanos`,
`last_frame_time`), the resizability flag and the last-loop dimensions
are real-time/IO bookkeeping that the diff algorithm does not read. -/
structure CrosstermCanvas where
  width : Nat
  height : Nat
  buffer : List Color
  previous_buffer : List Color
deriving DecidableEq, Repr

/-- Default used to embed `self.buffer[i]`; under the
`length = width * height` invariant maintained by `resize_surface` every
read of `calculate_patches` is in range, so the default is never
consulted there. -/
def blackPixel : Color := Color.from_rgb 0 0 0

/-- The inner (per-column) step of `CrosstermCanvas::calculate_patches`
(`canvas/crossterm.rs` lines 213-239): read the two stacked pixels
(substituting black for the lower one whenever the canvas height is
odd), compare with the previous buffer, and extend or flush the active
patch. -/
def patchStep (w h : Nat) (buffer previous_buffer : List Color) (y : Nat)
    (st : List Patch × Option Patch) (x : Nat) : List Patch × Option Patch :=
  let y1 := buffer.getD (y * w + x) blackPixel
  let y2 := if h % 2 ≠ 0 then Color.from_rgb 0 0 0
            else buffer.getD ((y + 1) * w + x) blackPixel
  let py1 := previous_buffer.getD (y * w + x) blackPixel
  let py2 := if h % 2 ≠ 0 then Color.from_rgb 0 0 0
             else previous_buffer.getD ((y + 1) * w + x) blackPixel
  if y1 ≠ py1 ∨ y2 ≠ py2 then
    match st.2 with
    | none => (st.1, some ((Patch.new x (y / 2)).add_two_row_pixel y1 y2))
    | some patch => (st.1, some (patch.add_two_row_pixel y1 y2))
  else
    match st.2 with
    | some patch => (st.1 ++ [patch], none)
    | none => st

/-- `patches.push(active_patch.take().unwrap())` guarded on
`active_patch.is_some()` (`canvas/crossterm.rs` lines 240-242 and
245-247). -/
def flushActive (st : List Patch × Option Patch) : List Patch × Option Patch :=
  match st.2 with
  | some patch => (st.1 ++ [patch], none)
  | none => st

/-- `CrosstermCanvas::calculate_patches` (`canvas/crossterm.rs` lines
209-250): scan the rows in vertical pairs (`(0..height).step_by(2)`),
walk every column, and collect the flushed patches. -/
def calculate_patches (c : CrosstermCanvas) : List Patch :=
  let final := (List.range' 0 ((c.height + 1) / 2) 2).foldl
    (fun st y =>
      flushActive ((List.range c.width).foldl
        (patchStep c.width c.height c.buffer c.previous_buffer y) st))
    ([], none)
  (flushActive final).1

/-- The diff-and-baseline portion of `RenderableCanvas::render`
(`canvas/crossterm.rs` lines 300-322): compute the patches, then
`previous_buffer.copy_from_slice(&buffer)` (a panic — `none` — when the
lengths differ; cursor movement, byte output and frame pacing are
terminal I/O outside the model). -/
def CrosstermCanvas.render (c : CrosstermCanvas) : Option (List Patch × CrosstermCanvas) :=
  if c.previous_buffer.length = c.buffer.length then
    some (calculate_patches c, { c with previous_buffer := c.buffer })
  else
    none

/-- Folding a function that fixes the state leaves the state fixed. -/
theorem foldl_fixed {α β : Type} (f : α → β → α) (s : α)
    (h : ∀ x, f s x = s) (l : List β) : l.foldl f s = s := by
  induction l with
  | nil => rfl
  | cons x xs ih => rw [List.foldl_cons, h x, ih]

/-- When the two buffers coincide, the scan never opens a patch. -/
theorem calculate_patches_self (c : CrosstermCanvas)
    (h : c.previous_buffer = c.buffer) : calculate_patches c = [] := by
  unfold calculate_patches
  rw [h]
  have hstep : ∀ y x,
      patchStep c.width c.height c.buffer c.buffer y ([], none) x = ([], none) := by
    intro y x
    simp [patchStep]
  have hrow : ∀ y,
      flushActive ((List.range c.width).foldl
        (patchStep c.width c.height c.buffer c.buffer y) ([], none)) = ([], none) := by
    intro y
    rw [foldl_fixed _ _ (hstep y), flushActive]
  rw [foldl_fixed _ _ hrow]
  rfl

/-- C6: rendering the same buffer contents twice in a row produces zero
patches on the second render.  A render copies `buffer` into
`previous_buffer`; `calculate_patches` on the resulting canvas (current
buffer unchanged) returns the empty patch list. -/
theorem c6_second_render_empty (c : CrosstermCanvas)
    (hlen : c.previous_buffer.length = c.buffer.length) :
    c.render = some (calculate_patches c, { c with previous_buffer := c.buffer }) ∧
    calculate_patches { c with previous_buffer := c.buffer } = [] := by
  constructor
  · unfold CrosstermCanvas.render
    rw [if_pos hlen]
  · exact calculate_patches_self _ rfl

/-- Witness for the second-render diff at a concrete 1 by 2 canvas. -/
theorem c6_second_render_empty_witness :
    (([Color.from_rgb 9 9 9, Color.from_rgb 7 7 7] : List Color).length
      = ([Color.from_rgb 1 2 3, Color.from_rgb 4 5 6] : List Color).length) ∧
    (CrosstermCanvas.render
        { width := 1, height := 2,
          buffer := [Color.from_rgb 1 2 3, Color.from_rgb 4 5 6],
          previous_buffer := [Color.from_rgb 9 9 9, Color.from_rgb 7 7 7] }
      = some (calculate_patches
          { width := 1, height := 2,
            buffer := [Color.from_rgb 1 2 3, Color.from_rgb 4 5 6],
            previous_buffer := [Color.from_rgb 9 9 9, Color.from_rgb 7 7 7] },
          { width := 1, height := 2,
            buffer := [Color.from_rgb 1 2 3, Color.from_rgb 4 5 6],
            previous_buffer := [Color.from_rgb 1 2 3, Color.from_rgb 4 5 6] }) ∧
      calculate_patches
        { width := 1, height := 2,
          buffer := [Color.from_rgb 1 2 3, Color.from_rgb 4 5 6],
          previous_buffer := [Color.from_rgb 1 2 3, Color.from_rgb 4 5 6] } = []) :=
  ⟨rfl,
    (c6_second_render_empty
      { width := 1, height := 2,
        buffer := [Color.from_rgb 1 2 3, Color.from_rgb 4 5 6],
        previous_buffer := [Color.from_rgb 9 9 9, Color.from_rgb 7 7 7] } rfl).1,
    (c6_second_render_empty
      { width := 1, height := 2,
        buffer := [Color.from_rgb 1 2 3, Color.from_rgb 4 5 6],
        previous_buffer := [Color.from_rgb 9 9 9, Color.from_rgb 7 7 7] } rfl).2⟩

/-- Fold congruence over the elements of a list. -/
theorem foldl_congr_mem {α β : Type} (f g : α → β → α) (l : List β)
    (h : ∀ st x, x ∈ l → f st x = g st x) (s : α) :
    l.foldl f s = l.foldl g s := by
  induction l generalizing s with
  | nil => rfl
  | cons x xs ih =>
    rw [List.foldl_cons, List.foldl_cons, h s x (List.mem_cons_self x xs)]
    exact ih (fun st z hz => h st z (List.mem_cons_of_mem x hz)) _

/-- C10: with an odd canvas height, `calculate_patches` substitutes
black for the lower pixel of every vertical row pair across the whole
scan, so the emitted patches never depend on the pixel values stored in
odd-indexed buffer rows: two canvases whose current buffers agree on all
even rows, and whose previous buffers agree on all even rows, produce
identical patch lists whatever their odd rows hold. -/
theorem c10_odd_rows_ignored (w h : Nat) (buf buf' prev prev' : List Color)
    (hodd : h % 2 = 1)
    (hbuf : ∀ y, y < h → y % 2 = 0 → ∀ x, x < w →
      buf.getD (y * w + x) blackPixel = buf'.getD (y * w + x) blackPixel)
    (hprev : ∀ y, y < h → y % 2 = 0 → ∀ x, x < w →
      prev.getD (y * w + x) blackPixel = prev'.getD (y * w + x) blackPixel) :
    calculate_patches
        { width := w, height := h, buffer := buf, previous_buffer := prev }
      = calculate_patches
        { width := w, height := h, buffer := buf', previous_buffer := prev' } := by
  have hne : h % 2 ≠ 0 := by omega
  unfold calculate_patches
  dsimp only
  congr 1
  congr 1
  apply foldl_congr_mem
  intro st y hy
  have hyfacts : y < h ∧ y % 2 = 0 := by
    rw [List.mem_range'] at hy
    obtain ⟨i, hi, rfl⟩ := hy
    omega
  congr 1
  apply foldl_congr_mem
  intro st' x hx
  rw [List.mem_range] at hx
  have e1 := hbuf y hyfacts.1 hyfacts.2 x hx
  have e2 := hprev y hyfacts.1 hyfacts.2 x hx
  simp only [patchStep, e1, e2]
  simp [hne]

/-- Witness for the odd-height row independence: 1 by 1 canvases whose
buffers differ only at the (out-of-pair) odd row index 1. -/
theorem c10_odd_rows_ignored_witness :
    (1 : Nat) % 2 = 1 ∧
    (∀ y, y < 1 → y % 2 = 0 → ∀ x, x < 1 →
      ([Color.from_rgb 5 5 5, Color.from_rgb 1 1 1] : List Color).getD
          (y * 1 + x) blackPixel
        = ([Color.from_rgb 5 5 5, Color.from_rgb 2 2 2] : List Color).getD
          (y * 1 + x) blackPixel) ∧
    (∀ y, y < 1 → y % 2 = 0 → ∀ x, x < 1 →
      ([Color.from_rgb 6 6 6] : List Color).getD (y * 1 + x) blackPixel
        = ([Color.from_rgb 6 6 6] : List Color).getD (y * 1 + x) blackPixel) ∧
    calculate_patches
        { width := 1, height := 1,
          buffer := [Color.from_rgb 5 5 5, Color.from_rgb 1 1 1],
          previous_buffer := [Color.from_rgb 6 6 6] }
      = calculate_patches
        { width := 1, height := 1,
          buffer := [Color.from_rgb 5 5 5, Color.from_rgb 2 2 2],
          previous_buffer := [Color.from_rgb 6 6 6] } :=
  ⟨by decide, by decide, by decide,
    c10_odd_rows_ignored 1 1
      [Color.from_rgb 5 5 5, Color.from_rgb 1 1 1]
      [Color.from_rgb 5 5 5, Color.from_rgb 2 2 2]
      [Color.from_rgb 6 6 6] [Color.from_rgb 6 6 6]
      (by decide) (by decide) (by decide)⟩

/-- C5: fallback-mode keystate round trip.  Starting from
`CrosstermInputState::new()` (fallback mode, `event_cycles_before_released
= 2`) with exactly one queued press of key `A`, three `next_loop` calls
with no further events give: `is_key_down(A)` true after calls 1 and 2
and false after call 3; `is_key_released(A)` true only after call 3;
`is_key_pressed(A)` true only after call 1. -/
theorem c5_fallback_roundtrip :
    (let s0 : CrosstermInputState :=
      { CrosstermInputState.new with
        event_queue := [Event.Key
          { kind := KeyEventKind.Press, code := KeyCode.Char 'A',
            modifiers :=
              { shift := false, control := false, alt := false,
                superKey := false, hyperKey := false, metaKey := false } }] }
     let s1 := (s0.next_loop).2
     let s2 := (s1.next_loop).2
     let s3 := (s2.next_loop).2
     s0.event_cycles_before_released = 2 ∧ s0.enhanced_keyboard = false ∧
     (s1.is_key_down KeyboardKey.A = true ∧
      s2.is_key_down KeyboardKey.A = true ∧
      s3.is_key_down KeyboardKey.A = false) ∧
     (s1.is_key_released KeyboardKey.A = false ∧
      s2.is_key_released KeyboardKey.A = false ∧
      s3.is_key_released KeyboardKey.A = true) ∧
     (s1.is_key_pressed KeyboardKey.A = true ∧
      s2.is_key_pressed KeyboardKey.A = false ∧
      s3.is_key_pressed KeyboardKey.A = false)) := by
  decide

/-- C7: the reserved interrupt is handled by the input layer itself.  In
both enhanced and fallback modes, if the drained queue contains a press
of `'c'` or `'C'` with the control modifier held, `next_loop` returns
`Exit(130)`, and the key-state tables are left untouched — the check
runs before either strategy processes any event. -/
theorem c7_ctrl_c_preempts (s : CrosstermInputState) (ke : KeyEvent)
    (hmem : Event.Key ke ∈ s.event_queue)
    (hkind : ke.kind = KeyEventKind.Press)
    (hcode : ke.code = KeyCode.Char 'c' ∨ ke.code = KeyCode.Char 'C')
    (hmods : ke.modifiers = KeyModifiers.CONTROL) :
    (s.next_loop).1 = NextLoopState.Exit 130 ∧
    (s.next_loop).2.keys_down = s.keys_down ∧
    (s.next_loop).2.keys_pressed_this_update = s.keys_pressed_this_update ∧
    (s.next_loop).2.keys_released_this_update = s.keys_released_this_update := by
  have hev : CrosstermInputState.ctrl_c_event (Event.Key ke) = true := by
    rcases hcode with h | h <;>
      simp [CrosstermInputState.ctrl_c_event, hkind, h, hmods]
  have hany : s.event_queue.any CrosstermInputState.ctrl_c_event = true :=
    List.any_eq_true.mpr ⟨Event.Key ke, hmem, hev⟩
  simp [CrosstermInputState.next_loop, hany]

/-- Witness for the interrupt preemption: a fallback-mode state whose
queue holds one control-'c' press. -/
theorem c7_ctrl_c_preempts_witness :
    (Event.Key
        { kind := KeyEventKind.Press, code := KeyCode.Char 'c',
          modifiers := KeyModifiers.CONTROL } ∈
      ({ CrosstermInputState.new with
        event_queue := [Event.Key
          { kind := KeyEventKind.Press, code := KeyCode.Char 'c',
            modifiers := KeyModifiers.CONTROL }] } :
          CrosstermInputState).event_queue) ∧
    (({ CrosstermInputState.new with
        event_queue := [Event.Key
          { kind := KeyEventKind.Press, code := KeyCode.Char 'c',
            modifiers := KeyModifiers.CONTROL }] } :
          CrosstermInputState).next_loop).1 = NextLoopState.Exit 130 :=
  ⟨by decide,
    (c7_ctrl_c_preempts
      { CrosstermInputState.new with
        event_queue := [Event.Key
          { kind := KeyEventKind.Press, code := KeyCode.Char 'c',
            modifiers := KeyModifiers.CONTROL }] }
      { kind := KeyEventKind.Press, code := KeyCode.Char 'c',
        modifiers := KeyModifiers.CONTROL }
      (by decide) rfl (Or.inl rfl) rfl).1⟩

/-- Values returned by a successful clip stay inside the canvas (with
one column and one row of slack from the `- 1` clamp) and never exceed
the requested extent. -/
theorem clip_rect_bounds {W H nx ny nw nh : Nat} {x y : Int} {w h : Nat}
    (hW : 0 < W) (hH : 0 < H) (hW32 : W ≤ 2 ^ 32) (hH32 : H ≤ 2 ^ 32)
    (hclip : clip_rect W H x y w h = some (nx, ny, nw, nh)) :
    nx + nw + 1 ≤ W ∧ ny + nh + 1 ≤ H ∧ nw ≤ w ∧ nh ≤ h := by
  simp only [clip_rect] at hclip
  split at hclip
  · exact absurd hclip (by simp)
  · next hcond =>
    push_neg at hcond
    obtain ⟨hx1, hy1, hx2, hy2⟩ := hcond
    simp only [Option.some.injEq, Prod.mk.injEq] at hclip
    obtain ⟨e1, e2, e3, e4⟩ := hclip
    have hmx0 : (0 : Int) ≤ max 0 x := le_max_left _ _
    have hmxx : x ≤ max 0 x := le_max_right _ _
    have hmxW : max 0 x ≤ (W : Int) - 1 := max_le (by omega) (by omega)
    have hmy0 : (0 : Int) ≤ max 0 y := le_max_left _ _
    have hmyy : y ≤ max 0 y := le_max_right _ _
    have hmyH : max 0 y ≤ (H : Int) - 1 := max_le (by omega) (by omega)
    have hnw1 : min ((w : Int) - (max 0 x - x)) ((W : Int) - max 0 x - 1)
        ≤ (W : Int) - max 0 x - 1 := min_le_right _ _
    have hnw2 : min ((w : Int) - (max 0 x - x)) ((W : Int) - max 0 x - 1)
        ≤ (w : Int) - (max 0 x - x) := min_le_left _ _
    have hnw0 : (0 : Int) ≤ min ((w : Int) - (max 0 x - x)) ((W : Int) - max 0 x - 1) :=
      le_min (by omega) (by omega)
    have hnh1 : min ((h : Int) - (max 0 y - y)) ((H : Int) - max 0 y - 1)
        ≤ (H : Int) - max 0 y - 1 := min_le_right _ _
    have hnh2 : min ((h : Int) - (max 0 y - y)) ((H : Int) - max 0 y - 1)
        ≤ (h : Int) - (max 0 y - y) := min_le_left _ _
    have hnh0 : (0 : Int) ≤ min ((h : Int) - (max 0 y - y)) ((H : Int) - max 0 y - 1) :=
      le_min (by omega) (by omega)
    have em1 : max 0 x % (2 ^ 32 : Int) = max 0 x :=
      Int.emod_eq_of_lt hmx0 (by omega)
    have em2 : max 0 y % (2 ^ 32 : Int) = max 0 y :=
      Int.emod_eq_of_lt hmy0 (by omega)
    have em3 : min ((w : Int) - (max 0 x - x)) ((W : Int) - max 0 x - 1) % (2 ^ 32 : Int)
        = min ((w : Int) - (max 0 x - x)) ((W : Int) - max 0 x - 1) :=
      Int.emod_eq_of_lt hnw0 (by omega)
    have em4 : min ((h : Int) - (max 0 y - y)) ((H : Int) - max 0 y - 1) % (2 ^ 32 : Int)
        = min ((h : Int) - (max 0 y - y)) ((H : Int) - max 0 y - 1) :=
      Int.emod_eq_of_lt hnh0 (by omega)
    rw [em1] at e1
    rw [em2] at e2
    rw [em3] at e3
    rw [em4] at e4
    omega

/-- A range read inside the buffer succeeds and yields `stop - start`
colors. -/
theorem get_range_eq (c : InMemoryCanvas) (start stop : Nat)
    (h1 : start ≤ stop) (h2 : stop ≤ c.buffer.length) :
    ∃ row, c.get_range start stop = some row ∧ row.length = stop - start := by
  unfold InMemoryCanvas.get_range
  rw [if_pos ⟨h1, h2⟩]
  refine ⟨_, rfl, ?_⟩
  rw [List.length_take, List.length_drop]
  omega

/-- A length-matched range write inside the buffer succeeds, preserving
the dimensions and the buffer length. -/
theorem set_range_eq (c : InMemoryCanvas) (start stop : Nat) (colors : List Color)
    (h1 : start ≤ stop) (h2 : stop ≤ c.buffer.length)
    (h3 : colors.length = stop - start) :
    ∃ c', c.set_range start stop colors = some c' ∧ c'.width = c.width ∧
      c'.height = c.height ∧ c'.buffer.length = c.buffer.length := by
  unfold InMemoryCanvas.set_range
  rw [if_pos ⟨h1, h2, h3⟩]
  refine ⟨_, rfl, rfl, rfl, ?_⟩
  simp only [List.length_append, List.length_take, List.length_drop]
  omega

/-- Invariant preservation through an `Option`-valued fold: if every
step taken from an invariant state succeeds and keeps the invariant, so
does the whole fold. -/
theorem foldlM_option_inv {α β : Type} (f : α → β → Option α) (l : List β)
    (P : α → Prop)
    (hstep : ∀ a, P a → ∀ x, x ∈ l → ∃ a', f a x = some a' ∧ P a') :
    ∀ a0, P a0 → ∃ a', l.foldlM f a0 = some a' ∧ P a' := by
  induction l with
  | nil => exact fun a0 h0 => ⟨a0, rfl, h0⟩
  | cons x xs ih =>
    intro a0 h0
    obtain ⟨a1, hfa, hPa⟩ := hstep a0 h0 x (List.mem_cons_self x xs)
    have ht := ih (fun a ha z hz => hstep a ha z (List.mem_cons_of_mem x hz)) a1 hPa
    obtain ⟨a', hfold, hP'⟩ := ht
    refine ⟨a', ?_, hP'⟩
    rw [List.foldlM_cons, hfa]
    simpa using hfold

/-- On a positive-dimension canvas whose buffer keeps the
`width * height` invariant (with `width * height` within `u32` range, as
enforced by the `u32` dimensions of the source), `filled_rect` always
succeeds — out-of-range rectangles clip or no-op, never panic — and
preserves dimensions and buffer length. -/
theorem filled_rect_safe (c : InMemoryCanvas)
    (hlen : c.buffer.length = c.width * c.height)
    (hW : 0 < c.width) (hH : 0 < c.height)
    (h32 : c.width * c.height ≤ 2 ^ 32)
    (sx sy : Int) (width height : Nat) (color : Color) :
    ∃ c', c.filled_rect sx sy width height color = some c' ∧
      c'.width = c.width ∧ c'.height = c.height ∧
      c'.buffer.length = c.buffer.length := by
  unfold InMemoryCanvas.filled_rect
  cases hclip : clip_rect c.width c.height sx sy width height with
  | none => exact ⟨c, rfl, rfl, rfl, rfl⟩
  | some t =>
    obtain ⟨nx, ny, nw, nh⟩ := t
    have hW32 : c.width ≤ 2 ^ 32 :=
      le_trans (Nat.le_mul_of_pos_right _ hH) h32
    have hH32 : c.height ≤ 2 ^ 32 :=
      le_trans (Nat.le_mul_of_pos_left _ hW) h32
    obtain ⟨hb1, hb2, hbw, hbh⟩ := clip_rect_bounds hW hH hW32 hH32 hclip
    dsimp only
    refine foldlM_option_inv _ _
      (fun a => a.width = c.width ∧ a.height = c.height ∧
        a.buffer.length = c.buffer.length) ?_ c ⟨rfl, rfl, rfl⟩
    intro a hPa y hy
    obtain ⟨haw, hah, halen⟩ := hPa
    rw [List.mem_range'_1] at hy
    have hyH : y + 2 ≤ c.height := by omega
    have key : y * c.width + nx + nw + 1 ≤ c.width * c.height := by
      have e2 : (y + 2) * c.width ≤ c.height * c.width :=
        Nat.mul_le_mul_right _ hyH
      have e3 : (y + 2) * c.width = y * c.width + c.width + c.width := by ring
      have e4 : c.width * c.height = c.height * c.width := Nat.mul_comm _ _
      omega
    have hmod1 : (y * a.width + nx) % 2 ^ 32 = y * c.width + nx := by
      rw [haw]
      exact Nat.mod_eq_of_lt (by omega)
    have hmod2 : (y * a.width + nx + nw) % 2 ^ 32 = y * c.width + nx + nw := by
      rw [haw]
      exact Nat.mod_eq_of_lt (by omega)
    rw [hmod1, hmod2]
    obtain ⟨c', hset, hw', hh', hlen'⟩ :=
      set_range_eq a (y * c.width + nx) (y * c.width + nx + nw)
        (List.replicate nw color) (by omega) (by rw [halen, hlen]; omega)
        (by rw [List.length_replicate]; omega)
    exact ⟨c', hset, by rw [hw', haw], by rw [hh', hah], by rw [hlen', halen]⟩

/-- On a positive-dimension destination with the buffer-length invariant
(and `width * height` strictly within `u32` range), `blit_rect` always
succeeds whenever the requested source region lies inside the source
canvas — any destination position only clips or no-ops — and preserves
the destination's dimensions and buffer length. -/
theorem blit_rect_safe (c src : InMemoryCanvas)
    (hlen : c.buffer.length = c.width * c.height)
    (hW : 0 < c.width) (hH : 0 < c.height)
    (h32 : c.width * c.height < 2 ^ 32)
    (hslen : src.buffer.length = src.width * src.height)
    (hs32 : src.width * src.height < 2 ^ 32)
    (src_x src_y width height : Nat) (dst_x dst_y : Int) (tint : Option Color)
    (hsx : src_x + width ≤ src.width) (hsy : src_y + height ≤ src.height) :
    ∃ c', c.blit_rect src src_x src_y width height dst_x dst_y tint = some c' ∧
      c'.width = c.width ∧ c'.height = c.height ∧
      c'.buffer.length = c.buffer.length := by
  unfold InMemoryCanvas.blit_rect
  cases hclip : clip_rect c.width c.height dst_x dst_y width height with
  | none => exact ⟨c, rfl, rfl, rfl, rfl⟩
  | some t =>
    obtain ⟨nx, ny, nw, nh⟩ := t
    have hW32 : c.width ≤ 2 ^ 32 :=
      le_trans (Nat.le_mul_of_pos_right _ hH) (le_of_lt h32)
    have hH32 : c.height ≤ 2 ^ 32 :=
      le_trans (Nat.le_mul_of_pos_left _ hW) (le_of_lt h32)
    obtain ⟨hb1, hb2, hbw, hbh⟩ := clip_rect_bounds hW hH hW32 hH32 hclip
    dsimp only
    refine foldlM_option_inv _ _
      (fun a => a.width = c.width ∧ a.height = c.height ∧
        a.buffer.length = c.buffer.length) ?_ c ⟨rfl, rfl, rfl⟩
    intro a hPa y hy
    obtain ⟨haw, hah, halen⟩ := hPa
    rw [List.mem_range] at hy
    dsimp only
    have hminw : min width nw = nw := Nat.min_eq_right hbw
    have hsrckey : (src_y + y) * src.width + src_x + nw ≤ src.width * src.height := by
      have e1 : src_y + y + 1 ≤ src.height := by omega
      have e2 : (src_y + y + 1) * src.width ≤ src.height * src.width :=
        Nat.mul_le_mul_right _ e1
      have e3 : (src_y + y + 1) * src.width = (src_y + y) * src.width + src.width := by
        ring
      have e4 : src.width * src.height = src.height * src.width := Nat.mul_comm _ _
      omega
    have hsmod : ((src_y + y) * src.width + src_x) % 2 ^ 32
        = (src_y + y) * src.width + src_x :=
      Nat.mod_eq_of_lt (by omega)
    have hdstkey : (ny + y) * c.width + nx + nw + 1 ≤ c.width * c.height := by
      have e1 : ny + y + 2 ≤ c.height := by omega
      have e2 : (ny + y + 2) * c.width ≤ c.height * c.width :=
        Nat.mul_le_mul_right _ e1
      have e3 : (ny + y + 2) * c.width
          = (ny + y) * c.width + c.width + c.width := by ring
      have e4 : c.width * c.height = c.height * c.width := Nat.mul_comm _ _
      omega
    have hdmod : ((ny + y) * a.width + nx) % 2 ^ 32 = (ny + y) * c.width + nx := by
      rw [haw]
      exact Nat.mod_eq_of_lt (by omega)
    rw [hsmod, hdmod]
    obtain ⟨row, hrow, hrowlen⟩ := get_range_eq src
      ((src_y + y) * src.width + src_x)
      ((src_y + y) * src.width + src_x + min width nw)
      (by omega) (by rw [hslen]; omega)
    rw [hrow]
    rw [hminw] at hrowlen
    simp only [Option.some_bind]
    cases tint with
    | some tt =>
      obtain ⟨c', hset, hw', hh', hlen'⟩ :=
        set_range_eq a ((ny + y) * c.width + nx) ((ny + y) * c.width + nx + nw)
          (row.map fun cc =>
            Color.from_rgb (cc.r * tt.r / 255 % 2 ^ 8)
              (cc.g * tt.g / 255 % 2 ^ 8) (cc.b * tt.b / 255 % 2 ^ 8))
          (by omega) (by rw [halen, hlen]; omega)
          (by rw [List.length_map]; omega)
      exact ⟨c', hset, by rw [hw', haw], by rw [hh', hah], by rw [hlen', halen]⟩
    | none =>
      obtain ⟨c', hset, hw', hh', hlen'⟩ :=
        set_range_eq a ((ny + y) * c.width + nx) ((ny + y) * c.width + nx + nw)
          row (by omega) (by rw [halen, hlen]; omega) (by omega)
      exact ⟨c', hset, by rw [hw', haw], by rw [hh', hah], by rw [hlen', halen]⟩

/-- `maybe_get` never panics: out-of-bounds coordinates return the
source's `None`, in-bounds coordinates reach a valid buffer index. -/
theorem maybe_get_safe (c : InMemoryCanvas)
    (hlen : c.buffer.length = c.width * c.height)
    (h32 : c.width * c.height ≤ 2 ^ 32) (x y : Int) :
    (c.maybe_get x y).isSome ∧
    ((x < 0 ∨ y < 0 ∨ (c.width : Int) ≤ x ∨ (c.height : Int) ≤ y) →
      c.maybe_get x y = some none) := by
  unfold InMemoryCanvas.maybe_get
  by_cases hoob : x < 0 ∨ y < 0 ∨ (c.width : Int) ≤ x ∨ (c.height : Int) ≤ y
  · rw [if_pos hoob]
    exact ⟨rfl, fun _ => rfl⟩
  · rw [if_neg hoob]
    have hoob' := hoob
    push_neg at hoob'
    obtain ⟨hx0, hy0, hxW, hyH⟩ := hoob'
    refine ⟨?_, fun h => absurd h hoob⟩
    have hxlt : x.toNat < c.width := by omega
    have hylt : y.toNat < c.height := by omega
    have hWle : c.width ≤ c.width * c.height :=
      Nat.le_mul_of_pos_right _ (by omega)
    have hHle : c.height ≤ c.width * c.height :=
      Nat.le_mul_of_pos_left _ (by omega)
    have hm1 : x.toNat % 2 ^ 32 = x.toNat := Nat.mod_eq_of_lt (by omega)
    have hm2 : y.toNat % 2 ^ 32 = y.toNat := Nat.mod_eq_of_lt (by omega)
    unfold InMemoryCanvas.get
    rw [hm1, hm2]
    have key : y.toNat * c.width + x.toNat + 1 ≤ c.width * c.height := by
      have e1 : y.toNat + 1 ≤ c.height := by omega
      have e2 : (y.toNat + 1) * c.width ≤ c.height * c.width :=
        Nat.mul_le_mul_right _ e1
      have e3 : (y.toNat + 1) * c.width = y.toNat * c.width + c.width := by ring
      have e4 : c.width * c.height = c.height * c.width := Nat.mul_comm _ _
      omega
    have hmi : (y.toNat * c.width + x.toNat) % 2 ^ 32
        = y.toNat * c.width + x.toNat := Nat.mod_eq_of_lt (by omega)
    rw [hmi]
    obtain ⟨row, hrow, hrowlen⟩ := get_range_eq c
      (y.toNat * c.width + x.toNat) (y.toNat * c.width + x.toNat + 1)
      (by omega) (by rw [hlen]; omega)
    dsimp only
    rw [hrow]
    simp only [Option.some_bind]
    have : 0 < row.length := by omega
    cases row with
    | nil => simp at this
    | cons a l => simp

/-- `is_empty_or_color` never panics and returns the `true` default on
out-of-bounds coordinates. -/
theorem is_empty_or_color_safe (c : InMemoryCanvas)
    (hlen : c.buffer.length = c.width * c.height)
    (h32 : c.width * c.height ≤ 2 ^ 32) (x y : Int) (color : Color) :
    (c.is_empty_or_color x y color).isSome ∧
    ((x < 0 ∨ y < 0 ∨ (c.width : Int) ≤ x ∨ (c.height : Int) ≤ y) →
      c.is_empty_or_color x y color = some true) := by
  obtain ⟨h1, h2⟩ := maybe_get_safe c hlen h32 x y
  unfold InMemoryCanvas.is_empty_or_color
  constructor
  · cases hmg : c.maybe_get x y with
    | none => rw [hmg] at h1; simp at h1
    | some v => simp
  · intro h
    rw [h2 h]
    rfl

/-- C8 counterexample: the claim includes `get` and `set` among the
operations that never raise, but on a 2 by 2 canvas the out-of-range
coordinate (0, 2) drives the flat index past the buffer and both
operations panic (Rust slice-index panic, `none` in the model). -/
theorem c8_get_set_panic :
    (InMemoryCanvas.new 2 2 (Color.from_rgb 0 0 0)).get 0 2 = none ∧
    (InMemoryCanvas.new 2 2 (Color.from_rgb 0 0 0)).set 0 2
      (Color.from_rgb 9 9 9) = none := by
  constructor
  · decide
  · decide

/-- C8 (amended): on every canvas with positive dimensions, the
`width * height` buffer invariant and a pixel count within `u32` range,
the coordinate-based operations other than `get`/`set` are total:
`maybe_get` returns `None` out of bounds, `is_empty_or_color` returns
`true` out of bounds, `filled_rect` and `clear_screen` always succeed
and fully-out-of-view rectangles are exact no-ops, and `blit_rect` with
a source region inside the source canvas always succeeds, its
fully-out-of-view destinations being exact no-ops.  (`get` and `set`
are excluded: they panic on out-of-range coordinates.) -/
theorem c8_safe_operations (c : InMemoryCanvas)
    (hlen : c.buffer.length = c.width * c.height)
    (hW : 0 < c.width) (hH : 0 < c.height)
    (h32 : c.width * c.height < 2 ^ 32) :
    (∀ x y : Int, (c.maybe_get x y).isSome ∧
      ((x < 0 ∨ y < 0 ∨ (c.width : Int) ≤ x ∨ (c.height : Int) ≤ y) →
        c.maybe_get x y = some none)) ∧
    (∀ (x y : Int) (color : Color), (c.is_empty_or_color x y color).isSome ∧
      ((x < 0 ∨ y < 0 ∨ (c.width : Int) ≤ x ∨ (c.height : Int) ≤ y) →
        c.is_empty_or_color x y color = some true)) ∧
    (∀ (sx sy : Int) (width height : Nat) (color : Color),
      (c.filled_rect sx sy width height color).isSome ∧
      (clip_rect c.width c.height sx sy width height = none →
        c.filled_rect sx sy width height color = some c)) ∧
    (∀ color : Color, (c.clear_screen color).isSome) ∧
    (∀ (src : InMemoryCanvas) (src_x src_y width height : Nat)
        (dst_x dst_y : Int) (tint : Option Color),
      src.buffer.length = src.width * src.height →
      src.width * src.height < 2 ^ 32 →
      src_x + width ≤ src.width → src_y + height ≤ src.height →
      (c.blit_rect src src_x src_y width height dst_x dst_y tint).isSome ∧
      (clip_rect c.width c.height dst_x dst_y width height = none →
        c.blit_rect src src_x src_y width height dst_x dst_y tint = some c)) := by
  refine ⟨?_, ?_, ?_, ?_, ?_⟩
  · intro x y
    exact maybe_get_safe c hlen (le_of_lt h32) x y
  · intro x y color
    exact is_empty_or_color_safe c hlen (le_of_lt h32) x y color
  · intro sx sy width height color
    constructor
    · obtain ⟨c', hfr, _⟩ :=
        filled_rect_safe c hlen hW hH (le_of_lt h32) sx sy width height color
      rw [hfr]
      rfl
    · intro hclip
      unfold InMemoryCanvas.filled_rect
      rw [hclip]
  · intro color
    obtain ⟨c', hfr, _⟩ :=
      filled_rect_safe c hlen hW hH (le_of_lt h32) 0 0 c.width c.height color
    unfold InMemoryCanvas.clear_screen
    rw [hfr]
    rfl
  · intro src src_x src_y width height dst_x dst_y tint hslen hs32 hsx hsy
    constructor
    · obtain ⟨c', hbr, _⟩ := blit_rect_safe c src hlen hW hH h32 hslen hs32
        src_x src_y width height dst_x dst_y tint hsx hsy
      rw [hbr]
      rfl
    · intro hclip
      unfold InMemoryCanvas.blit_rect
      rw [hclip]

/-- Witness for the amended no-panic claim on a concrete 2 by 2 canvas,
with out-of-range probes for every operation. -/
theorem c8_safe_operations_witness :
    ((InMemoryCanvas.new 2 2 (Color.from_rgb 0 0 0)).buffer.length
        = (InMemoryCanvas.new 2 2 (Color.from_rgb 0 0 0)).width
          * (InMemoryCanvas.new 2 2 (Color.from_rgb 0 0 0)).height ∧
      0 < (InMemoryCanvas.new 2 2 (Color.from_rgb 0 0 0)).width ∧
      0 < (InMemoryCanvas.new 2 2 (Color.from_rgb 0 0 0)).height ∧
      (InMemoryCanvas.new 2 2 (Color.from_rgb 0 0 0)).width
        * (InMemoryCanvas.new 2 2 (Color.from_rgb 0 0 0)).height < 2 ^ 32) ∧
    ((InMemoryCanvas.new 2 2 (Color.from_rgb 0 0 0)).maybe_get 5 7).isSome ∧
    (∀ (x y : Int) (color : Color),
      ((InMemoryCanvas.new 2 2 (Color.from_rgb 0 0 0)).is_empty_or_color
        x y color).isSome ∧
      ((x < 0 ∨ y < 0 ∨
          ((InMemoryCanvas.new 2 2 (Color.from_rgb 0 0 0)).width : Int) ≤ x ∨
          ((InMemoryCanvas.new 2 2 (Color.from_rgb 0 0 0)).height : Int) ≤ y) →
        (InMemoryCanvas.new 2 2 (Color.from_rgb 0 0 0)).is_empty_or_color
          x y color = some true)) ∧
    ((InMemoryCanvas.new 2 2 (Color.from_rgb 0 0 0)).filled_rect (-3) (-3) 9 9
      (Color.from_rgb 1 2 3)).isSome ∧
    ((InMemoryCanvas.new 2 2 (Color.from_rgb 0 0 0)).clear_screen
      (Color.from_rgb 1 2 3)).isSome :=
  ⟨⟨rfl, by decide, by decide, by decide⟩,
    ((c8_safe_operations (InMemoryCanvas.new 2 2 (Color.from_rgb 0 0 0)) rfl
      (by decide) (by decide) (by decide)).1 5 7).1,
    (c8_safe_operations (InMemoryCanvas.new 2 2 (Color.from_rgb 0 0 0)) rfl
      (by decide) (by decide) (by decide)).2.1,
    ((c8_safe_operations (InMemoryCanvas.new 2 2 (Color.from_rgb 0 0 0)) rfl
      (by decide) (by decide) (by decide)).2.2.1 (-3) (-3) 9 9
      (Color.from_rgb 1 2 3)).1,
    (c8_safe_operations (InMemoryCanvas.new 2 2 (Color.from_rgb 0 0 0)) rfl
      (by decide) (by decide) (by decide)).2.2.2.1 (Color.from_rgb 1 2 3)⟩

/-- C9: the final color module's constructors store their second
positional argument in the blue channel and their third in the green
channel: `from_rgb x y z` yields `(r x, g z, b y, a 255)` and
`from_rgba x y z a` yields `(r x, g z, b y, a)`. -/
theorem c9_constructor_swaps_green_blue (x y z a : Nat) :
    Color.from_rgb x y z = { r := x, g := z, b := y, a := 255 } ∧
    Color.from_rgba x y z a = { r := x, g := z, b := y, a := a } :=
  ⟨rfl, rfl⟩

/-! ## Fixed-timestep scheduler (`src/pixel_loop/lib.rs`, `PixelLoop`) -/

/-- The body of `while self.accumulator > self.update_timestep` in
`PixelLoop::next_loop`: repeatedly subtract `ts` from `acc` while
`ts < acc`, returning the number of loop iterations (update-callback
invocations) together with the remaining accumulator.  The source
guarantees `0 < ts` through the `update_fps > 0` constructor check; for
`ts = 0` (where the source would not terminate) the model returns
without iterating. -/
def drainSteps (ts acc : Nat) : Nat × Nat :=
  if h : ts < acc ∧ 0 < ts then
    let r := drainSteps ts (acc - ts)
    (r.1 + 1, r.2)
  else
    (0, acc)
termination_by acc
decreasing_by exact Nat.sub_lt (Nat.lt_of_le_of_lt (Nat.zero_le ts) h.1) h.2

/-- Closed form of the drain loop: it executes `(acc - 1) / ts` update
steps and leaves `acc - ((acc - 1) / ts) * ts` in the accumulator. -/
theorem drainSteps_eq {ts : Nat} (hts : 0 < ts) (acc : Nat) :
    drainSteps ts acc = ((acc - 1) / ts, acc - (acc - 1) / ts * ts) := by
  induction acc using Nat.strong_induction_on with
  | _ acc ih =>
    rw [drainSteps]
    by_cases hlt : ts < acc
    · rw [dif_pos ⟨hlt, hts⟩, ih (acc - ts) (Nat.sub_lt (by omega) hts)]
      have hnum : acc - 1 - ts = acc - ts - 1 := by omega
      have hdiv : (acc - 1) / ts = (acc - ts - 1) / ts + 1 := by
        rw [Nat.div_eq_sub_div hts (by omega), hnum]
      have hle : (acc - ts - 1) / ts * ts ≤ acc - ts - 1 :=
        Nat.div_mul_le_self _ _
      dsimp only
      rw [hdiv]
      simp only [Prod.mk.injEq, true_and]
      have hmul : ((acc - ts - 1) / ts + 1) * ts = (acc - ts - 1) / ts * ts + ts := by
        ring
      rw [hmul]
      generalize (acc - ts - 1) / ts * ts = k at hle ⊢
      omega
    · rw [dif_neg (by tauto)]
      have hz : (acc - 1) / ts = 0 := Nat.div_eq_of_lt (by omega)
      rw [hz]
      simp only [Prod.mk.injEq, true_and, Nat.zero_mul, Nat.sub_zero]

/-- Scheduler state, `struct PixelLoop` in `src/pixel_loop/lib.rs`:
the time accumulator and the fixed tick duration, both in nanoseconds
(`std::time::Duration`), together with the running number of
update-callback invocations (the observable effect of the opaque
`update` function pointer). -/
structure PixelLoopState where
  accumulator : Nat
  update_timestep : Nat
  updates : Nat
deriving DecidableEq, Repr

/-- `PixelLoop::next_loop` (`src/pixel_loop/lib.rs` lines 76-102) for a
measured wall-clock delta `dt` (nanoseconds): clamp `dt` to 100ms, run
the drain loop on the *current* accumulator, render, and only then add
`dt` to the accumulator. -/
def next_loop (p : PixelLoopState) (dt : Nat) : PixelLoopState :=
  let dt := if 100000000 < dt then 100000000 else dt
  let r := drainSteps p.update_timestep p.accumulator
  { accumulator := r.2 + dt, update_timestep := p.update_timestep,
    updates := p.updates + r.1 }

/-- Iterating `next_loop` once per measured delta. -/
def runDeltas (p : PixelLoopState) (deltas : List Nat) : PixelLoopState :=
  deltas.foldl next_loop p

/-- C3: the accumulator-determinism property fails on the code.  With
update rate `R = 10` (tick duration 100ms, i.e. `100000000` ns) and the
two deltas 100ms + 100ms (each within the 100ms clamp, summing to
`T = 200ms`), the claim demands `floor(T / (1/R)) = 2` updates within
one tick, but `PixelLoop::next_loop` adds each delta to the accumulator
only *after* the drain loop and drains only while the accumulator
strictly exceeds the timestep, so zero updates run. -/
theorem c3_chunked_deltas_lose_ticks :
    (runDeltas { accumulator := 0, update_timestep := 100000000, updates := 0 }
        [100000000, 100000000]).updates = 0 ∧
    (100000000 + 100000000) / 100000000 = 2 := by
  constructor
  · simp [runDeltas, next_loop, drainSteps_eq (by norm_num : (0:Nat) < 100000000)]
  · norm_num

/-- Any delta of at least 100ms is clamped: `next_loop` behaves as if
the delta were exactly 100ms. -/
theorem next_loop_clamp (p : PixelLoopState) (dt : Nat) (h : 100000000 ≤ dt) :
    next_loop p dt = next_loop p 100000000 := by
  simp only [next_loop]
  have h1 : (if 100000000 < dt then 100000000 else dt) = 100000000 := by
    split <;> omega
  have h2 : (if (100000000 : Nat) < 100000000 then 100000000 else 100000000)
      = 100000000 := by
    split <;> omega
  rw [h1, h2]

/-- Counting helper: the updates of a two-iteration run `[d, 0]` from
state `(a, t, u)` with `d` at most the 100ms clamp. -/
theorem runDeltas_pair (a t u d : Nat) (ht : 0 < t) (hd : d ≤ 100000000) :
    (runDeltas { accumulator := a, update_timestep := t, updates := u } [d, 0]).updates
      = u + (a - 1) / t + (a - (a - 1) / t * t + d - 1) / t := by
  have hd' : ¬ (100000000 < d) := by omega
  have h0 : ¬ ((100000000 : Nat) < 0) := by omega
  simp only [runDeltas, List.foldl, next_loop, drainSteps_eq ht, hd', h0, if_false]

/-- Carry bound for truncating division. -/
theorem div_add_le_div_add_div (x b t : Nat) (ht : 0 < t) :
    (x + b) / t ≤ x / t + b / t + 1 := by
  rw [Nat.add_div ht]
  split <;> omega

/-- C4 counterexample: at the concrete scheduler state with tick
duration 40ms and 30ms already in the accumulator, a single measured
5-second delta causes 3 update invocations — the update count of the run
that observes the delta (drained in the following iteration), minus the
count of the same run with an idle delta instead — exceeding the claimed
bound `floor(0.1s / tick_duration) = 100000000 / 40000000 = 2`. -/
theorem c4_claimed_bound_fails :
    ¬ ((runDeltas { accumulator := 30000000, update_timestep := 40000000, updates := 0 }
          [5000000000, 0]).updates
        - (runDeltas { accumulator := 30000000, update_timestep := 40000000, updates := 0 }
          [0, 0]).updates ≤ 100000000 / 40000000) := by
  have hc : runDeltas
      { accumulator := 30000000, update_timestep := 40000000, updates := 0 }
      [5000000000, 0] = runDeltas
      { accumulator := 30000000, update_timestep := 40000000, updates := 0 }
      [100000000, 0] := by
    simp only [runDeltas, List.foldl]
    rw [next_loop_clamp
      { accumulator := 30000000, update_timestep := 40000000, updates := 0 }
      5000000000 (by omega)]
  rw [hc, runDeltas_pair 30000000 40000000 0 100000000 (by omega) (by omega),
    runDeltas_pair 30000000 40000000 0 0 (by omega) (by omega)]
  norm_num

/-- C4 (amended): a measured delta of 5 seconds is clamped to 100ms, and
the clamped delta causes at most `floor(0.1s / tick_duration) + 1`
update invocations — at most `floor(0.1s / tick_duration)` when the
accumulator is empty — never the `floor(5s / tick_duration)` an
unclamped delta would cause. -/
theorem c4_stall_clamped (p : PixelLoopState) (hts : 0 < p.update_timestep) :
    next_loop p 5000000000 = next_loop p 100000000 ∧
    (runDeltas p [5000000000, 0]).updates - (runDeltas p [0, 0]).updates
      ≤ 100000000 / p.update_timestep + 1 ∧
    (p.accumulator = 0 →
      (runDeltas p [5000000000, 0]).updates - (runDeltas p [0, 0]).updates
        ≤ 100000000 / p.update_timestep) := by
  obtain ⟨a, t, u⟩ := p
  dsimp only at hts ⊢
  have hc : runDeltas { accumulator := a, update_timestep := t, updates := u }
      [5000000000, 0] = runDeltas
      { accumulator := a, update_timestep := t, updates := u } [100000000, 0] := by
    simp only [runDeltas, List.foldl]
    rw [next_loop_clamp { accumulator := a, update_timestep := t, updates := u }
      5000000000 (by omega)]
  refine ⟨next_loop_clamp _ _ (by omega), ?_, ?_⟩
  · rw [hc, runDeltas_pair a t u 100000000 hts (by omega),
      runDeltas_pair a t u 0 hts (by omega)]
    generalize a - (a - 1) / t * t = rem
    have key : (rem + 100000000 - 1) / t ≤ (rem + 0 - 1) / t + 100000000 / t + 1 := by
      rcases Nat.eq_zero_or_pos rem with h0 | h1
      · subst h0
        have hb : ((0 : Nat) + 100000000 - 1) / t ≤ 100000000 / t :=
          Nat.div_le_div_right (by omega)
        have hz : ((0 : Nat) + 0 - 1) / t = 0 := by norm_num
        omega
      · have hsw : rem + 100000000 - 1 = (rem + 0 - 1) + 100000000 := by omega
        rw [hsw]
        exact div_add_le_div_add_div _ _ _ hts
    refine tsub_le_iff_right.mpr ?_
    calc u + (a - 1) / t + (rem + 100000000 - 1) / t
        ≤ u + (a - 1) / t + ((rem + 0 - 1) / t + 100000000 / t + 1) :=
          Nat.add_le_add_left key _
      _ = 100000000 / t + 1 + (u + (a - 1) / t + (rem + 0 - 1) / t) := by ring
  · intro ha
    subst ha
    rw [hc, runDeltas_pair 0 t u 100000000 hts (by omega),
      runDeltas_pair 0 t u 0 hts (by omega)]
    norm_num
    exact Nat.div_le_div_right (by omega)

/-- Witness for the amended stall-clamping bound at the concrete state
with tick duration 40ms, accumulator 30ms. -/
theorem c4_stall_clamped_witness :
    0 < (40000000 : Nat) ∧
    (next_loop { accumulator := 30000000, update_timestep := 40000000, updates := 0 }
        5000000000
      = next_loop { accumulator := 30000000, update_timestep := 40000000, updates := 0 }
        100000000 ∧
    (runDeltas { accumulator := 30000000, update_timestep := 40000000, updates := 0 }
        [5000000000, 0]).updates
      - (runDeltas { accumulator := 30000000, update_timestep := 40000000, updates := 0 }
        [0, 0]).updates ≤ 100000000 / 40000000 + 1 ∧
    ((30000000 : Nat) = 0 →
      (runDeltas { accumulator := 30000000, update_timestep := 40000000, updates := 0 }
          [5000000000, 0]).updates
        - (runDeltas { accumulator := 30000000, update_timestep := 40000000, updates := 0 }
          [0, 0]).updates ≤ 100000000 / 40000000)) :=
  ⟨by norm_num,
    c4_stall_clamped
      { accumulator := 30000000, update_timestep := 40000000, updates := 0 }
      (by norm_num)⟩

end PixelLoop
